import Mathlib

/-!
A shallow embedding, in Lean 4, of the SQLite-catalog introspection engine of
the repository (src/resources/resource_4_db_schema.py,
resource_5_sample_data.py, resource_6_table_relationships.py,
resource_7_table_stats.py, resource_8_db_constraints.py,
resource_9_db_indexes.py), followed by theorems settling the frozen claims
about it.

Modelling conventions:
* A `Database` value models a reachable SQLite store after a successful
  `sqlite3.connect`: the `tables` field is the content of `sqlite_master`
  restricted to rows with `type = table` (system `sqlite_%` tables included).
* The PRAGMA primitives (`table_info`, `foreign_key_list`, `index_list`,
  `index_info`) and the `sqlite_master` queries are modelled by total
  accessor functions on `Database`; a PRAGMA on a missing table returns the
  empty list, as SQLite does.
* The per-column MIN/MAX/AVG range queries of the statistics resource are
  the one place the engine consumes *data-level* answers from the store
  inside a `try/except sqlite3.Error` block; they are modelled by a
  `StatsEnv` oracle whose `none` answer stands for a raised `sqlite3.Error`.
* Response dictionaries are modelled by structures carrying every field the
  handlers compute, except the purely informational constant/timestamp
  blocks (`resource_info`, `llm_context`, `server_info`, `timestamp`) and
  debug prints, which no claim mentions.  `{error: false, ...}` versus
  `{error: true, ...}` is modelled by `Except ErrEnvelope payload`.
-/

/-- A single quote character, used when assembling the error messages the
handlers build with Python f-strings. -/
def sQuote : String := String.singleton (Char.ofNat 39)

/-- `needle.isPrefixOf hay` on character lists, written out. -/
def charsPrefix : List Char → List Char → Bool
  | [], _ => true
  | _ :: _, [] => false
  | a :: as, b :: bs => a = b && charsPrefix as bs

/-- Python `needle in hay` (substring containment) on character lists. -/
def charsContain (needle : List Char) : List Char → Bool
  | [] => charsPrefix needle []
  | c :: rest => charsPrefix needle (c :: rest) || charsContain needle rest

/-- Python `needle in hay` for strings. -/
def strContains (hay needle : String) : Bool :=
  charsContain needle.data hay.data

/-- Python whitespace class over the ASCII range. -/
def pyIsSpace (c : Char) : Bool :=
  c = Char.ofNat 32 || c = Char.ofNat 9 || c = Char.ofNat 10 ||
  c = Char.ofNat 13 || c = Char.ofNat 11 || c = Char.ofNat 12

/-- Python `str.strip()`. -/
def pyStrip (s : String) : String :=
  ⟨(s.data.dropWhile pyIsSpace).reverse.dropWhile pyIsSpace |>.reverse⟩

/-- Python `str.lower()` / SQLite case folding, ASCII as in the data both
handle. -/
def pyLower (s : String) : String := ⟨s.data.map Char.toLower⟩

/-- SQLite `name LIKE \x27sqlite_%\x27`: case-insensitively the six letters
`sqlite`, then one arbitrary character (`_` is a single-character wildcard),
then anything. -/
def matchesSqlitePattern (n : String) : Bool :=
  charsPrefix "sqlite".data (pyLower n).data && decide (7 ≤ (pyLower n).data.length)

/-- SQLite value, as surfaced through the Python sqlite3 driver. -/
inductive Value where
  | null : Value
  | intV (n : Int) : Value
  | realV (q : Rat) : Value
  | textV (s : String) : Value
  | blobV (s : String) : Value
deriving DecidableEq, Repr

/-- One row of a table, as the dict produced from a `sqlite3.Row`. -/
abbrev Row := List (String × Value)

/-- One row of `PRAGMA table_info(t)`: name, declared type, notnull flag,
default-value text, primary-key flag. -/
structure Column where
  name : String
  declType : String
  notNull : Bool
  dflt : Option String
  pk : Bool
deriving DecidableEq, Repr

/-- One row of `PRAGMA foreign_key_list(t)`: referenced table (`fk[2]`),
local column (`fk[3]`), referenced column (`fk[4]`), actions. -/
structure FK where
  table : String
  fromCol : String
  toCol : String
  onUpdate : String
  onDelete : String
deriving DecidableEq, Repr

/-- One row of `PRAGMA index_list(t)` together with the column names that
`PRAGMA index_info(name)` returns for it. -/
structure IndexInfo where
  name : String
  unique : Bool
  origin : String
  cols : List String
deriving DecidableEq, Repr

/-- One table of the store: its `sqlite_master` name and `sql` text, its
PRAGMA metadata and its rows in natural scan order. -/
structure Table where
  name : String
  columns : List Column
  fks : List FK
  indexes : List IndexInfo
  rows : List Row
  createSql : Option String
deriving DecidableEq, Repr

/-- A reachable SQLite database: the tables of `sqlite_master`. -/
structure Database where
  tables : List Table
deriving DecidableEq, Repr

/-- `SELECT name FROM sqlite_master WHERE type='table' AND name NOT LIKE
'sqlite_%'` — the shared `_get_available_tables` helper.  SQLite `LIKE` is
ASCII case-insensitive, hence the lowering. -/
def availableTables (db : Database) : List String :=
  (db.tables.map (·.name)).filter (fun n => !(matchesSqlitePattern n))

/-- `SELECT name FROM sqlite_master WHERE type='table' AND name=?` — the
existence check every single-table handler performs (`=` is case-sensitive). -/
def existsTable (db : Database) (name : String) : Bool :=
  db.tables.any (·.name = name)

/-- Catalog lookup backing the PRAGMA accessors. -/
def findTable (db : Database) (name : String) : Option Table :=
  db.tables.find? (·.name = name)

/-- `PRAGMA table_info(name)`; empty on a missing table. -/
def pragmaTableInfo (db : Database) (name : String) : List Column :=
  match findTable db name with
  | some t => t.columns
  | none => []

/-- `PRAGMA foreign_key_list(name)`; empty on a missing table. -/
def pragmaForeignKeys (db : Database) (name : String) : List FK :=
  match findTable db name with
  | some t => t.fks
  | none => []

/-- `PRAGMA index_list(name)` (with `index_info` per index); empty on a
missing table. -/
def pragmaIndexList (db : Database) (name : String) : List IndexInfo :=
  match findTable db name with
  | some t => t.indexes
  | none => []

/-- `SELECT COUNT(*) FROM name` for an existing table. -/
def selectCount (db : Database) (name : String) : Nat :=
  match findTable db name with
  | some t => t.rows.length
  | none => 0

/-- `SELECT * FROM name LIMIT k` for an existing table. -/
def selectLimit (db : Database) (name : String) (k : Nat) : List Row :=
  match findTable db name with
  | some t => t.rows.take k
  | none => []

/-- `SELECT sql FROM sqlite_master WHERE type='table' AND name=?`. -/
def selectCreateSql (db : Database) (name : String) : Option String :=
  match findTable db name with
  | some t => t.createSql
  | none => none

/-- The error dictionaries the handlers return (`error: true`), keeping the
fields the claims talk about. -/
structure ErrEnvelope where
  errorType : String
  message : String
  tableName : String
  availableTables : Option (List String)
deriving DecidableEq, Repr

/-- The `table_not_found` envelope shared by every single-table branch. -/
def tableNotFoundEnv (msg : String) (tableName : String)
    (avail : List String) : ErrEnvelope :=
  { errorType := "table_not_found", message := msg, tableName := tableName,
    availableTables := some avail }

/-! ## Resource #6 — table relationships (resource_6_table_relationships.py) -/

/-- One outgoing edge as built in `_get_table_relationship_data`. -/
structure OutEdge where
  localColumn : String
  foreignTable : String
  foreignColumn : String
  relationshipType : String
  constraintName : String
deriving DecidableEq, Repr

/-- One incoming edge as built in `_get_incoming_relationships`. -/
structure InEdge where
  localTable : String
  localColumn : String
  foreignColumn : String
  relationshipType : String
  constraintName : String
deriving DecidableEq, Repr

/-- The outgoing-edge list of `_get_table_relationship_data`: one edge per
`PRAGMA foreign_key_list` row. -/
def outgoingRelationships (db : Database) (tableName : String) : List OutEdge :=
  (pragmaForeignKeys db tableName).map fun fk =>
    { localColumn := fk.fromCol, foreignTable := fk.table,
      foreignColumn := fk.toCol, relationshipType := "many_to_one",
      constraintName := "fk_" ++ tableName ++ "_" ++ fk.fromCol }

/-- The incoming edges contributed by one candidate table of the scan in
`_get_incoming_relationships`: skipped when it is the table itself
(`continue`), otherwise its foreign keys whose referenced table matches. -/
def incomingFromTable (db : Database) (tableName otName : String) : List InEdge :=
  if otName = tableName then []
  else
    ((pragmaForeignKeys db otName).filter (fun fk => fk.table = tableName)).map
      fun fk =>
        { localTable := otName, localColumn := fk.fromCol,
          foreignColumn := fk.toCol, relationshipType := "one_to_many",
          constraintName := "fk_" ++ otName ++ "_" ++ fk.fromCol }

/-- The scan of `_get_incoming_relationships` over a list of table names. -/
def scanIncoming (db : Database) (tableName : String) :
    List String → List InEdge
  | [] => []
  | otName :: rest =>
      incomingFromTable db tableName otName ++ scanIncoming db tableName rest

/-- `_get_incoming_relationships(cursor, table_name)`: scan every
non-system table of the catalog. -/
def incomingRelationships (db : Database) (tableName : String) : List InEdge :=
  scanIncoming db tableName (availableTables db)

/-- The dictionary `_get_table_relationship_data` returns. -/
structure RelData where
  tableName : String
  outgoing : List OutEdge
  incoming : List InEdge
  totalRelationships : Nat
  canJoinTo : List String
  referencedBy : List String
deriving DecidableEq, Repr

/-- `_get_table_relationship_data(cursor, table_name)`. -/
def tableRelationshipData (db : Database) (tableName : String) : RelData :=
  let outg := outgoingRelationships db tableName
  let inc := incomingRelationships db tableName
  { tableName := tableName, outgoing := outg, incoming := inc,
    totalRelationships := outg.length + inc.length,
    canJoinTo := outg.map (·.foreignTable),
    referencedBy := inc.map (·.localTable) }

/-- The `get_table_relationships` handler (database reachable): the `"all"`
sentinel enumerates, otherwise the existence guard runs and the single
table is processed. -/
def getTableRelationships (db : Database) (tableName : String) :
    Except ErrEnvelope (List (String × RelData)) :=
  if pyLower tableName = "all" then
    .ok ((availableTables db).map fun t => (t, tableRelationshipData db t))
  else if existsTable db tableName then
    .ok [(tableName, tableRelationshipData db tableName)]
  else
    .error (tableNotFoundEnv
      ("Table " ++ sQuote ++ tableName ++ sQuote ++ " not found in database")
      tableName (availableTables db))

/-! ## Resource #7 — table statistics: classifiers (resource_7_table_stats.py) -/

/-- `_categorize_table_size(row_count)`. -/
def categorizeTableSize (rowCount : Nat) : String :=
  if rowCount = 0 then "empty"
  else if rowCount < 100 then "small"
  else if rowCount < 10000 then "medium"
  else if rowCount < 100000 then "large"
  else "very_large"

/-- `_get_performance_tier(row_count)`. -/
def getPerformanceTier (rowCount : Nat) : String :=
  if rowCount < 100 then "instant"
  else if rowCount < 1000 then "fast"
  else if rowCount < 10000 then "moderate"
  else if rowCount < 100000 then "slow"
  else "optimization_required"

/-- `_estimate_table_size(row_count, column_count)` (KB, floor 1). -/
def estimateTableSize (rowCount columnCount : Nat) : Nat :=
  max 1 (rowCount * columnCount * 50 / 1024)

/-- Position of a size category in the ordered scale
empty < small < medium < large < very_large. -/
def sizeCategoryIndex (c : String) : Nat :=
  if c = "empty" then 0
  else if c = "small" then 1
  else if c = "medium" then 2
  else if c = "large" then 3
  else 4

/-- Position of a performance tier in the ordered scale
instant < fast < moderate < slow < optimization_required. -/
def performanceTierIndex (c : String) : Nat :=
  if c = "instant" then 0
  else if c = "fast" then 1
  else if c = "moderate" then 2
  else if c = "slow" then 3
  else 4

/-! ### Numeric/format helpers mirroring Python primitives -/

/-- Python `round(q, 2)` on an exact rational (round half to even at two
decimal places). -/
def pyRound2 (q : Rat) : Rat :=
  let y := q * 100
  let f : Int := y.floor
  let r : Rat := y - (f : Rat)
  if r < 1 / 2 then (f : Rat) / 100
  else if 1 / 2 < r then ((f + 1 : Int) : Rat) / 100
  else if f % 2 = 0 then (f : Rat) / 100
  else ((f + 1 : Int) : Rat) / 100

/-- Python `repr` of a list of strings, as an f-string renders it. -/
def pyListRepr (l : List String) : String :=
  "[" ++ String.intercalate ", " (l.map fun s => sQuote ++ s ++ sQuote) ++ "]"

/-! ## Resource #7 — detailed statistics (`_get_detailed_table_stats`) -/

/-- The keyword tests of the column-classification loop:
`any(num_type in col_type for num_type in [...])` on the lowercased
declared type. -/
def isNumericType (c : Column) : Bool :=
  ["int", "real", "numeric", "decimal", "float"].any fun k =>
    strContains (pyLower c.declType) k

/-- `any(date_type in col_type for date_type in [...])`. -/
def isDateType (c : Column) : Bool :=
  ["date", "time", "timestamp"].any fun k =>
    strContains (pyLower c.declType) k

/-- The range fields a column-statistics entry may have gained from its
range query (`dict.update`); `noRange` when no query ran or it errored. -/
inductive RangeFields where
  | noRange : RangeFields
  | numeric (min max : Option Rat) (average : Option Rat)
      (rangeSize : Option Rat) : RangeFields
  | date (earliest latest : Option String) (dateRange : Option String) :
      RangeFields
deriving DecidableEq, Repr

/-- One `column_stats` entry: the basic fields of the classification loop
plus whatever range fields a later query merged in. -/
structure ColStat where
  declType : String
  nullable : Bool
  fields : RangeFields
deriving DecidableEq, Repr

/-- Oracle for the data-level aggregate queries of the statistics resource:
`numRange t c` models `SELECT MIN(c), MAX(c), AVG(c) FROM t WHERE c IS NOT
NULL` (`none` = the query raised `sqlite3.Error`; the inner options are SQL
NULLs on an empty table), `dateRange t c` models the MIN/MAX date query. -/
structure StatsEnv where
  numRange : String → String → Option (Option Rat × Option Rat × Option Rat)
  dateRange : String → String → Option (Option String × Option String)

/-- Association-list lookup into `column_stats` (column names are unique in
a PRAGMA result, so this is the Python dict access). -/
def lookupStat (n : String) : List (String × ColStat) → Option ColStat
  | [] => none
  | (m, s) :: rest => if m = n then some s else lookupStat n rest

/-- `column_stats[name].update(...)`: rewrite the entry of one column. -/
def updateStat (l : List (String × ColStat)) (n : String)
    (f : ColStat → ColStat) : List (String × ColStat) :=
  l.map fun p => if p.1 = n then (p.1, f p.2) else p

/-- One iteration of the numeric-statistics loop: on success merge
min/max/average/range_size (`round(avg, 2) if avg else None`;
`max - min` only when both ends are non-NULL), on `sqlite3.Error` skip. -/
def numStep (env : StatsEnv) (tableName : String)
    (stats : List (String × ColStat)) (c : String) :
    List (String × ColStat) :=
  match env.numRange tableName c with
  | none => stats
  | some (mn, mx, av) =>
      let avg : Option Rat :=
        match av with
        | none => none
        | some v => if v = 0 then none else some (pyRound2 v)
      let rangeSize : Option Rat :=
        match mn, mx with
        | some a, some b => some (b - a)
        | _, _ => none
      updateStat stats c fun s => { s with fields := .numeric mn mx avg rangeSize }

/-- The numeric-statistics loop over the (capped) numeric column names. -/
def numLoop (env : StatsEnv) (tableName : String)
    (stats : List (String × ColStat)) : List String → List (String × ColStat)
  | [] => stats
  | c :: rest => numLoop env tableName (numStep env tableName stats c) rest

/-- One iteration of the date-statistics loop: on success merge
earliest/latest/date_range (the range string only when both ends are
truthy), on `sqlite3.Error` skip. -/
def dateStep (env : StatsEnv) (tableName : String)
    (stats : List (String × ColStat)) (c : String) :
    List (String × ColStat) :=
  match env.dateRange tableName c with
  | none => stats
  | some (mn, mx) =>
      let rangeStr : Option String :=
        match mn, mx with
        | some a, some b =>
            if a ≠ "" ∧ b ≠ "" then some (a ++ " to " ++ b) else none
        | _, _ => none
      updateStat stats c fun s => { s with fields := .date mn mx rangeStr }

/-- The date-statistics loop over the (capped) date column names. -/
def dateLoop (env : StatsEnv) (tableName : String)
    (stats : List (String × ColStat)) : List String → List (String × ColStat)
  | [] => stats
  | c :: rest => dateLoop env tableName (dateStep env tableName stats c) rest

/-- The `optimization_hints` dictionary of
`_generate_optimization_hints`. -/
structure OptHints where
  indexingRecommended : Bool
  fullTableScanCost : String
  joinPerformance : String
  numericColumns : Option String
  dateColumns : Option String
deriving DecidableEq, Repr

/-- `_generate_optimization_hints(row_count, column_count, numeric_cols,
date_cols)`. -/
def generateOptimizationHints (rowCount : Nat) (_columnCount : Nat)
    (numericCols dateCols : List String) : OptHints :=
  { indexingRecommended := rowCount > 1000,
    fullTableScanCost :=
      if rowCount < 1000 then "low"
      else if rowCount < 10000 then "high" else "very_high",
    joinPerformance :=
      if rowCount < 1000 then "excellent"
      else if rowCount < 10000 then "good" else "requires_optimization",
    numericColumns :=
      if numericCols.isEmpty then none
      else some ("Consider indexes on " ++ pyListRepr (numericCols.take 3) ++
        " for range queries"),
    dateColumns :=
      if dateCols.isEmpty then none
      else some ("Consider indexes on " ++ pyListRepr (dateCols.take 2) ++
        " for time-based queries") }

/-- The dictionary `_get_detailed_table_stats` returns. -/
structure DetailedStats where
  tableName : String
  rowCount : Nat
  columnCount : Nat
  estimatedSizeKb : Nat
  sizeCategory : String
  columnStatistics : List (String × ColStat)
  optimizationHints : OptHints
  performanceTier : String
deriving Repr

/-- `_get_detailed_table_stats(cursor, table_name)`: classify the columns,
run the capped numeric (first 5) and date (first 3) range loops, assemble
the payload. -/
def detailedTableStats (env : StatsEnv) (db : Database)
    (tableName : String) : DetailedStats :=
  let rowCount := selectCount db tableName
  let cols := pragmaTableInfo db tableName
  let stats0 : List (String × ColStat) := cols.map fun c =>
    (c.name, { declType := pyLower c.declType, nullable := !c.notNull,
               fields := .noRange })
  let numericCols := (cols.filter isNumericType).map (·.name)
  let dateCols := (cols.filter fun c => !isNumericType c && isDateType c).map (·.name)
  let stats1 := numLoop env tableName stats0 (numericCols.take 5)
  let stats2 := dateLoop env tableName stats1 (dateCols.take 3)
  { tableName := tableName, rowCount := rowCount,
    columnCount := cols.length,
    estimatedSizeKb := estimateTableSize rowCount cols.length,
    sizeCategory := categorizeTableSize rowCount,
    columnStatistics := stats2,
    optimizationHints :=
      generateOptimizationHints rowCount cols.length numericCols dateCols,
    performanceTier := getPerformanceTier rowCount }

/-- The dictionary `_get_basic_table_stats` returns. -/
structure BasicStats where
  tableName : String
  rowCount : Nat
  sizeCategory : String
deriving DecidableEq, Repr

/-- `_get_basic_table_stats(cursor, table_name)`. -/
def basicTableStats (db : Database) (tableName : String) : BasicStats :=
  { tableName := tableName, rowCount := selectCount db tableName,
    sizeCategory := categorizeTableSize (selectCount db tableName) }

/-- A `stats_data` entry: basic under `"all"`, detailed for one table. -/
inductive StatsEntry where
  | basic (b : BasicStats) : StatsEntry
  | detailed (d : DetailedStats) : StatsEntry
deriving Repr

/-- The `get_table_statistics` handler (database reachable). -/
def getTableStatistics (env : StatsEnv) (db : Database) (tableName : String) :
    Except ErrEnvelope (List (String × StatsEntry)) :=
  if pyLower tableName = "all" then
    .ok ((availableTables db).map fun t => (t, .basic (basicTableStats db t)))
  else if existsTable db tableName then
    .ok [(tableName, .detailed (detailedTableStats env db tableName))]
  else
    .error (tableNotFoundEnv
      ("Table " ++ sQuote ++ tableName ++ sQuote ++ " not found in database")
      tableName (availableTables db))

/-! ## Resource #5 — sample data (resource_5_sample_data.py) -/

/-- The success payload of `get_sample_data`. -/
structure SamplePayload where
  tableName : String
  sampleRows : List Row
  columnNames : List String
  sampleSize : Nat
deriving DecidableEq, Repr

/-- `_get_simple_sample_data(cursor, table_name)`:
column names from `PRAGMA table_info`, rows from `SELECT * ... LIMIT 5`. -/
def simpleSampleData (db : Database) (tableName : String) :
    List String × List Row :=
  ((pragmaTableInfo db tableName).map (·.name), selectLimit db tableName 5)

/-- The `get_sample_data` handler (database reachable): existence guard,
then the simple sample.  There is no `"all"` path in this resource. -/
def getSampleData (db : Database) (tableName : String) :
    Except ErrEnvelope SamplePayload :=
  if existsTable db tableName then
    let sd := simpleSampleData db tableName
    .ok { tableName := tableName, sampleRows := sd.2, columnNames := sd.1,
          sampleSize := sd.2.length }
  else
    .error (tableNotFoundEnv
      ("Table " ++ sQuote ++ tableName ++ sQuote ++
        " not found in analytics database")
      tableName (availableTables db))

/-! ## Resource #4 — database schema (resource_4_db_schema.py) -/

/-- A foreign-key dict of `_extract_table_info`. -/
structure SchemaFK where
  column : String
  referencesTable : String
  referencesColumn : String
  onUpdate : String
  onDelete : String
deriving DecidableEq, Repr

/-- An index dict of `_extract_table_info` (name, unique, columns). -/
structure SchemaIdx where
  name : String
  unique : Bool
  columns : List String
deriving DecidableEq, Repr

/-- The dictionary `_extract_table_info` returns. -/
structure TableInfo where
  name : String
  columns : List Column
  primaryKeys : List String
  foreignKeys : List SchemaFK
  indexes : List SchemaIdx
  columnCount : Nat
  hasRelationships : Bool
deriving DecidableEq, Repr

/-- `_extract_table_info(cursor, table_name)`. -/
def extractTableInfo (db : Database) (tableName : String) : TableInfo :=
  let cols := pragmaTableInfo db tableName
  let fks := (pragmaForeignKeys db tableName).map fun fk =>
    { column := fk.fromCol, referencesTable := fk.table,
      referencesColumn := fk.toCol, onUpdate := fk.onUpdate,
      onDelete := fk.onDelete : SchemaFK }
  let idxs := (pragmaIndexList db tableName).map fun idx =>
    { name := idx.name, unique := idx.unique, columns := idx.cols : SchemaIdx }
  { name := tableName, columns := cols,
    primaryKeys := (cols.filter (·.pk)).map (·.name),
    foreignKeys := fks, indexes := idxs,
    columnCount := cols.length,
    hasRelationships := fks.length > 0 }

/-- One entry of the flattened relationship list of
`_get_all_tables_schema`. -/
structure SchemaRel where
  fromTable : String
  fromColumn : String
  toTable : String
  toColumn : String
  relationshipType : String
deriving DecidableEq, Repr

/-- The `database_summary` block of the all-tables schema. -/
structure DbSummary where
  totalTables : Nat
  tableNames : List String
  totalRelationships : Nat
  schemaComplexity : String
deriving DecidableEq, Repr

/-- The success payloads of `get_database_schema`: the empty-catalog
message, the all-tables roll-up, or a single table. -/
inductive SchemaOut where
  | allEmpty : SchemaOut
  | allTables (tableCount : Nat) (tables : List (String × TableInfo))
      (relationships : List SchemaRel) (summary : DbSummary) : SchemaOut
  | single (tableName : String) (info : TableInfo) : SchemaOut
deriving DecidableEq, Repr

/-- `_get_all_tables_schema(cursor)`. -/
def allTablesSchema (db : Database) : SchemaOut :=
  let tables := availableTables db
  if tables.isEmpty then .allEmpty
  else
    let infos := tables.map fun t => (t, extractTableInfo db t)
    let rels := infos.flatMap fun ti =>
      ti.2.foreignKeys.map fun fk =>
        { fromTable := ti.1, fromColumn := fk.column,
          toTable := fk.referencesTable, toColumn := fk.referencesColumn,
          relationshipType := "many_to_one" : SchemaRel }
    .allTables tables.length infos rels
      { totalTables := tables.length, tableNames := tables,
        totalRelationships := rels.length,
        schemaComplexity :=
          if tables.length > 5 then "high"
          else if tables.length > 2 then "medium" else "simple" }

/-- The `get_database_schema` handler (database reachable): the `"all"`
sentinel enumerates, otherwise `_get_single_table_schema` guards existence
and extracts one table. -/
def getDatabaseSchema (db : Database) (tableName : String) :
    Except ErrEnvelope SchemaOut :=
  if pyLower tableName = "all" then .ok (allTablesSchema db)
  else if existsTable db tableName then
    .ok (.single tableName (extractTableInfo db tableName))
  else
    .error (tableNotFoundEnv
      ("Table " ++ sQuote ++ tableName ++ sQuote ++
        " not found in analytics database")
      tableName (availableTables db))

/-! ## Resource #8 — database constraints (resource_8_db_constraints.py) -/

/-- A `column_constraints` entry of `_get_table_constraints`. -/
structure ColCon where
  columnName : String
  dataType : String
  notNull : Bool
  primaryKey : Bool
  defaultValue : Option String
  tags : List String
deriving DecidableEq, Repr

/-- The column-level constraint tags accumulated by the first loop of
`_get_table_constraints` (`PRIMARY KEY`, `NOT NULL`, `DEFAULT v`). -/
def colConstraintTags (c : Column) : List String :=
  (if c.pk then ["PRIMARY KEY"] else []) ++
  (if c.notNull then ["NOT NULL"] else []) ++
  (match c.dflt with
   | some v => ["DEFAULT " ++ v]
   | none => [])

/-- The column loop of `_get_table_constraints`, in iteration order:
column-constraint dicts, primary-key names, NOT-NULL count, nullable
count. -/
def colLoop : List Column → List (String × ColCon) × List String × Nat × Nat
  | [] => ([], [], 0, 0)
  | c :: rest =>
      let acc := colLoop rest
      ((c.name,
        { columnName := c.name, dataType := c.declType, notNull := c.notNull,
          primaryKey := c.pk, defaultValue := c.dflt,
          tags := colConstraintTags c }) :: acc.1,
       (if c.pk then c.name :: acc.2.1 else acc.2.1),
       (if c.notNull then acc.2.2.1 + 1 else acc.2.2.1),
       (if c.notNull then acc.2.2.2 else acc.2.2.2 + 1))

/-- A `foreign_keys` entry of `_get_table_constraints`. -/
structure FKC where
  column : String
  referencesTable : String
  referencesColumn : String
  constraintName : String
deriving DecidableEq, Repr

/-- Append a tag to one column entry
(`constraints["column_constraints"][name]["constraints"].append(tag)`). -/
def appendTag (ccs : List (String × ColCon)) (n tag : String) :
    List (String × ColCon) :=
  ccs.map fun p =>
    if p.1 = n then (p.1, { p.2 with tags := p.2.tags ++ [tag] }) else p

/-- The foreign-key loop of `_get_table_constraints`: build the
`foreign_keys` entries and append the `FOREIGN KEY REFERENCES t(c)` tag to
the matching column when it is present in `column_constraints`. -/
def fkLoop (tableName : String) :
    List FK → List (String × ColCon) → List FKC × List (String × ColCon)
  | [], ccs => ([], ccs)
  | fk :: rest, ccs =>
      let ccs1 :=
        if ccs.any (·.1 = fk.fromCol) then
          appendTag ccs fk.fromCol
            ("FOREIGN KEY REFERENCES " ++ fk.table ++ "(" ++ fk.toCol ++ ")")
        else ccs
      let acc := fkLoop tableName rest ccs1
      ({ column := fk.fromCol, referencesTable := fk.table,
         referencesColumn := fk.toCol,
         constraintName := "fk_" ++ tableName ++ "_" ++ fk.fromCol } :: acc.1,
       acc.2)

/-- A `unique_constraints` entry. -/
structure UniqueC where
  constraintName : String
  columns : List String
  constraintType : String
deriving DecidableEq, Repr

/-- `_get_unique_constraints(cursor, table_name)`: every unique index is
kept, except a single-column one whose column is a primary-key column of
the table (the for/else scan of `PRAGMA table_info`). -/
def getUniqueConstraints (db : Database) (tableName : String) : List UniqueC :=
  (pragmaIndexList db tableName).filterMap fun idx =>
    if idx.unique then
      match idx.cols with
      | [c] =>
          if (pragmaTableInfo db tableName).any
              (fun col => col.name = c && col.pk) then
            none
          else
            some { constraintName := idx.name, columns := [c],
                   constraintType := "UNIQUE" }
      | cs =>
          some { constraintName := idx.name, columns := cs,
                 constraintType := "UNIQUE" }
    else none

/-- A `check_constraints` entry. -/
structure CheckC where
  constraintName : String
  checkCondition : String
  constraintType : String
deriving DecidableEq, Repr

/-- Attempt the regex `CHECK\s*\(([^)]+)\)` (IGNORECASE) at the head of the
character list; on success return the captured group and the characters
after the match. -/
def matchCheckAt : List Char → Option (String × List Char)
  | c1 :: c2 :: c3 :: c4 :: c5 :: rest =>
      if c1.toLower = Char.ofNat 99 ∧ c2.toLower = Char.ofNat 104 ∧
         c3.toLower = Char.ofNat 101 ∧ c4.toLower = Char.ofNat 99 ∧
         c5.toLower = Char.ofNat 107 then
        match rest.dropWhile pyIsSpace with
        | p :: body =>
            if p = Char.ofNat 40 then
              let cond := body.takeWhile (fun ch => ch ≠ Char.ofNat 41)
              match body.dropWhile (fun ch => ch ≠ Char.ofNat 41) with
              | q :: tail =>
                  if q = Char.ofNat 41 ∧ !cond.isEmpty then
                    some (⟨cond⟩, tail)
                  else none
              | [] => none
            else none
        | [] => none
      else none
  | _ => none

/-- `re.finditer` of the CHECK pattern: scan left to right, resuming after
each non-overlapping match.  Each step consumes at least one character, so
a fuel of the input length suffices. -/
def scanChecksAux : Nat → List Char → List String
  | 0, _ => []
  | _, [] => []
  | fuel + 1, c :: rest =>
      match matchCheckAt (c :: rest) with
      | some (cond, tail) => cond :: scanChecksAux fuel tail
      | none => scanChecksAux fuel rest

/-- All captured CHECK conditions of a creation statement, in order. -/
def scanChecks (s : String) : List String :=
  scanChecksAux s.data.length s.data

/-- `for i, match in enumerate(matches)`: number the captured conditions,
strip each, synthesize `check_<table>_<i+1>` names. -/
def numberChecks (tableName : String) : Nat → List String → List CheckC
  | _, [] => []
  | i, cond :: rest =>
      { constraintName := "check_" ++ tableName ++ "_" ++ toString (i + 1),
        checkCondition := pyStrip cond, constraintType := "CHECK" } ::
        numberChecks tableName (i + 1) rest

/-- `_get_check_constraints(cursor, table_name)`: best-effort scan of the
`sqlite_master.sql` text; a missing or falsy statement yields `[]`. -/
def getCheckConstraints (db : Database) (tableName : String) : List CheckC :=
  match selectCreateSql db tableName with
  | none => []
  | some sql => if sql = "" then [] else numberChecks tableName 0 (scanChecks sql)

/-- The `constraint_summary` block. -/
structure ConstraintSummary where
  totalConstraints : Nat
  hasPrimaryKey : Bool
  hasForeignKeys : Bool
  hasUniqueConstraints : Bool
  hasCheckConstraints : Bool
  nullableColumns : Nat
  notNullColumns : Nat
deriving DecidableEq, Repr

/-- The dictionary `_get_table_constraints` returns. -/
structure TableCons where
  tableName : String
  columnConstraints : List (String × ColCon)
  primaryKeys : List String
  foreignKeys : List FKC
  uniqueConstraints : List UniqueC
  checkConstraints : List CheckC
  summary : ConstraintSummary
deriving DecidableEq, Repr

/-- `_get_table_constraints(cursor, table_name)`. -/
def getTableConstraints (db : Database) (tableName : String) : TableCons :=
  let cols := pragmaTableInfo db tableName
  let colAcc := colLoop cols
  let fkAcc := fkLoop tableName (pragmaForeignKeys db tableName) colAcc.1
  let uqs := getUniqueConstraints db tableName
  let cks := getCheckConstraints db tableName
  { tableName := tableName, columnConstraints := fkAcc.2,
    primaryKeys := colAcc.2.1, foreignKeys := fkAcc.1,
    uniqueConstraints := uqs, checkConstraints := cks,
    summary :=
      { totalConstraints := colAcc.2.1.length + fkAcc.1.length + uqs.length +
          cks.length + colAcc.2.2.1,
        hasPrimaryKey := !colAcc.2.1.isEmpty,
        hasForeignKeys := !(pragmaForeignKeys db tableName).isEmpty,
        hasUniqueConstraints := !uqs.isEmpty,
        hasCheckConstraints := !cks.isEmpty,
        nullableColumns := colAcc.2.2.2,
        notNullColumns := colAcc.2.2.1 } }

/-- The `get_database_constraints` handler (database reachable). -/
def getDatabaseConstraints (db : Database) (tableName : String) :
    Except ErrEnvelope (List (String × TableCons)) :=
  if pyLower tableName = "all" then
    .ok ((availableTables db).map fun t => (t, getTableConstraints db t))
  else if existsTable db tableName then
    .ok [(tableName, getTableConstraints db tableName)]
  else
    .error (tableNotFoundEnv
      ("Table " ++ sQuote ++ tableName ++ sQuote ++ " not found in database")
      tableName (availableTables db))

/-! ## Resource #9 — database indexes (resource_9_db_indexes.py) -/

/-- One index dict of `_get_table_indexes`. -/
structure IdxDetail where
  indexName : String
  columns : List String
  columnCount : Nat
  isUnique : Bool
  origin : String
deriving DecidableEq, Repr

/-- The dictionary `_get_table_indexes` returns. -/
structure TableIdxs where
  tableName : String
  indexes : List IdxDetail
  totalIndexes : Nat
  uniqueIndexes : Nat
  nonUniqueIndexes : Nat
deriving DecidableEq, Repr

/-- `_get_table_indexes(cursor, table_name)`. -/
def getTableIndexes (db : Database) (tableName : String) : TableIdxs :=
  let idxs := (pragmaIndexList db tableName).map fun i =>
    { indexName := i.name, columns := i.cols, columnCount := i.cols.length,
      isUnique := i.unique, origin := i.origin : IdxDetail }
  { tableName := tableName, indexes := idxs, totalIndexes := idxs.length,
    uniqueIndexes := (idxs.filter (·.isUnique)).length,
    nonUniqueIndexes := idxs.length - (idxs.filter (·.isUnique)).length }

/-- The `get_database_indexes` handler (database reachable). -/
def getDatabaseIndexes (db : Database) (tableName : String) :
    Except ErrEnvelope (List (String × TableIdxs)) :=
  if pyLower tableName = "all" then
    .ok ((availableTables db).map fun t => (t, getTableIndexes db t))
  else if existsTable db tableName then
    .ok [(tableName, getTableIndexes db tableName)]
  else
    .error (tableNotFoundEnv
      ("Table " ++ sQuote ++ tableName ++ sQuote ++ " not found in database")
      tableName (availableTables db))

/-! ## Concrete example catalogs used by counterexamples and witnesses -/

/-- A table with a self-referencing foreign key (employees.manager_id →
employees.id). -/
def selfRefTable : Table :=
  { name := "employees",
    columns := [⟨"id", "INTEGER", false, none, true⟩,
                ⟨"manager_id", "INTEGER", false, none, false⟩],
    fks := [⟨"employees", "manager_id", "id", "NO ACTION", "NO ACTION"⟩],
    indexes := [], rows := [], createSql := none }

/-- A catalog whose only foreign key is self-referencing. -/
def selfRefDb : Database := ⟨[selfRefTable]⟩

/-- A table with two foreign-key columns referencing the same table. -/
def ordersTable : Table :=
  { name := "orders", columns := [],
    fks := [⟨"users", "buyer_id", "id", "NO ACTION", "NO ACTION"⟩,
            ⟨"users", "seller_id", "id", "NO ACTION", "NO ACTION"⟩],
    indexes := [], rows := [], createSql := none }

/-- The table the two foreign keys of `ordersTable` reference. -/
def usersTable : Table := ⟨"users", [], [], [], [], none⟩

/-- A two-table catalog with two parallel foreign-key edges. -/
def pairDb : Database := ⟨[ordersTable, usersTable]⟩

/-- A table with a primary key and several unique indexes: the implicit
single-column primary-key index, a single-column unique index on a non-key
column, a multi-column unique index, and a non-unique index. -/
def productsTable : Table :=
  { name := "products",
    columns := [⟨"id", "INTEGER", true, none, true⟩,
                ⟨"sku", "TEXT", true, none, false⟩],
    fks := [],
    indexes := [⟨"sqlite_autoindex_products_1", true, "pk", ["id"]⟩,
                ⟨"idx_sku", true, "u", ["sku"]⟩,
                ⟨"idx_multi", true, "c", ["id", "sku"]⟩,
                ⟨"idx_plain", false, "c", ["sku"]⟩],
    rows := [], createSql := none }

/-- A one-table catalog exercising the unique-constraint extraction. -/
def productsDb : Database := ⟨[productsTable]⟩

/-- A table whose creation statement holds two CHECK clauses. -/
def peopleTable : Table :=
  ⟨"people", [], [], [], [],
    some "CREATE TABLE people (age INT CHECK (age >= 0), name TEXT CHECK (length(name) > 0))"⟩

/-- A one-table catalog exercising the CHECK-constraint scanner. -/
def peopleDb : Database := ⟨[peopleTable]⟩

/-- A table with seven rows, to exercise the LIMIT-5 sampling. -/
def logsTable : Table :=
  ⟨"logs", [⟨"v", "INT", false, none, false⟩], [], [],
    List.replicate 7 [("v", Value.intV 1)], none⟩

/-- A one-table catalog for the sampling witness. -/
def logsDb : Database := ⟨[logsTable]⟩

/-- A table with two numeric columns and a date column, for the statistics
degradation witness. -/
def measuresTable : Table :=
  ⟨"measures",
    [⟨"a", "INT", false, none, false⟩,
     ⟨"b", "REAL", false, none, false⟩,
     ⟨"d", "DATE", false, none, false⟩],
    [], [], [], none⟩

/-- A one-table catalog for the statistics degradation witness. -/
def measuresDb : Database := ⟨[measuresTable]⟩

/-- A statistics oracle whose numeric range query on column `a` raises. -/
def failEnv : StatsEnv :=
  ⟨fun _ c => if c = "a" then none else some (some 0, some 10, some 5),
   fun _ _ => some (some "2020", some "2021")⟩

/-- A statistics oracle identical to `failEnv` except that the query on
column `a` succeeds. -/
def okEnv : StatsEnv :=
  ⟨fun _ c => if c = "a" then some (some 1, some 2, some 2)
              else some (some 0, some 10, some 5),
   fun _ _ => some (some "2020", some "2021")⟩

/-- A catalog containing a table literally named `All`. -/
def allNamedTable : Table := ⟨"All", [⟨"x", "INT", false, none, false⟩], [], [], [], none⟩

/-- A one-table catalog whose table is named `All`. -/
def allNamedDb : Database := ⟨[allNamedTable]⟩

/-- A trivial statistics oracle, for instantiating handlers whose
statistics path is not taken. -/
def trivialEnv : StatsEnv := ⟨fun _ _ => none, fun _ _ => none⟩

/-! ## Helper lemmas -/

theorem existsTable_of_findTable {db : Database} {n : String} {t : Table}
    (h : findTable db n = some t) : existsTable db n = true := by
  have hm := List.mem_of_find?_eq_some h
  have hp := List.find?_some h
  simp only [existsTable, List.any_eq_true]
  exact ⟨t, hm, hp⟩

theorem find_name_of_mem_nodup {l : List Table}
    (hnd : (l.map (·.name)).Nodup) {A : Table} (hA : A ∈ l) :
    l.find? (·.name = A.name) = some A := by
  induction l with
  | nil => cases hA
  | cons t rest ih =>
      simp only [List.map_cons, List.nodup_cons] at hnd
      rcases List.mem_cons.mp hA with rfl | hmem
      · simp [List.find?]
      · have hne : ¬(t.name = A.name) := by
          intro he
          exact hnd.1 (he ▸ List.mem_map_of_mem (·.name) hmem)
        rw [List.find?_cons_of_neg _ (by simpa using hne)]
        exact ih hnd.2 hmem

theorem findTable_of_mem_nodup {db : Database}
    (hnd : (db.tables.map (·.name)).Nodup) {A : Table} (hA : A ∈ db.tables) :
    findTable db A.name = some A :=
  find_name_of_mem_nodup hnd hA

theorem name_mem_availableTables {db : Database} {A : Table}
    (hA : A ∈ db.tables) (hsys : matchesSqlitePattern A.name = false) :
    A.name ∈ availableTables db := by
  unfold availableTables
  refine List.mem_filter.mpr ⟨List.mem_map_of_mem (·.name) hA, ?_⟩
  simp [hsys]

theorem availableTables_nodup {db : Database}
    (hnd : (db.tables.map (·.name)).Nodup) : (availableTables db).Nodup :=
  hnd.filter _

theorem localTable_of_mem_incomingFromTable {db : Database} {tname n : String}
    {e : InEdge} (h : e ∈ incomingFromTable db tname n) : e.localTable = n := by
  unfold incomingFromTable at h
  split at h
  · cases h
  · rcases List.mem_map.mp h with ⟨fk, _, rfl⟩
    rfl

theorem countP_incomingFromTable_ne {db : Database} {tname n nm c rc : String}
    (hne : n ≠ nm) :
    (incomingFromTable db tname n).countP
      (fun e => e.localTable == nm && e.localColumn == c &&
        e.foreignColumn == rc) = 0 := by
  refine List.countP_eq_zero.mpr fun e he => ?_
  have hl := localTable_of_mem_incomingFromTable he
  simp [hl, hne]

theorem countP_incomingFromTable_eq {db : Database} {tname : String}
    {A : Table} (hfind : findTable db A.name = some A)
    (hne : A.name ≠ tname) (c rc : String) :
    (incomingFromTable db tname A.name).countP
      (fun e => e.localTable == A.name && e.localColumn == c &&
        e.foreignColumn == rc) =
    A.fks.countP
      (fun fk => fk.table == tname && fk.fromCol == c && fk.toCol == rc) := by
  unfold incomingFromTable
  rw [if_neg hne]
  unfold pragmaForeignKeys
  rw [hfind]
  rw [List.countP_map, List.countP_filter]
  refine List.countP_congr fun fk _ => ?_
  simp [Function.comp]
  tauto

theorem scanIncoming_countP_zero {db : Database} {tname nm c rc : String}
    {names : List String} (hnot : nm ∉ names) :
    (scanIncoming db tname names).countP
      (fun e => e.localTable == nm && e.localColumn == c &&
        e.foreignColumn == rc) = 0 := by
  induction names with
  | nil => rfl
  | cons n rest ih =>
      have hne : n ≠ nm := fun h => hnot (h ▸ List.mem_cons_self n rest)
      have hrest : nm ∉ rest := fun h => hnot (List.mem_cons_of_mem n h)
      show ((incomingFromTable db tname n) ++ scanIncoming db tname rest).countP _ = 0
      rw [List.countP_append, countP_incomingFromTable_ne hne, ih hrest]

theorem scanIncoming_countP_eq {db : Database} {tname : String} {A : Table}
    (hfind : findTable db A.name = some A) (hne : A.name ≠ tname)
    (c rc : String) :
    ∀ names : List String, names.Nodup → A.name ∈ names →
    (scanIncoming db tname names).countP
      (fun e => e.localTable == A.name && e.localColumn == c &&
        e.foreignColumn == rc) =
    A.fks.countP
      (fun fk => fk.table == tname && fk.fromCol == c && fk.toCol == rc) := by
  intro names
  induction names with
  | nil => intro _ h; cases h
  | cons n rest ih =>
      intro hnd hmem
      have hnd2 := List.nodup_cons.mp hnd
      show ((incomingFromTable db tname n) ++ scanIncoming db tname rest).countP _ = _
      rw [List.countP_append]
      rcases List.mem_cons.mp hmem with rfl | hmemr
      · rw [countP_incomingFromTable_eq hfind hne c rc,
          scanIncoming_countP_zero hnd2.1]
        omega
      · have hnA : n ≠ A.name := fun h => hnd2.1 (h ▸ hmemr)
        rw [countP_incomingFromTable_ne (Ne.symm (fun h => hnA h.symm)), ih hnd2.2 hmemr]
        omega

theorem mem_scanIncoming {db : Database} {tname : String} {names : List String}
    {e : InEdge} (h : e ∈ scanIncoming db tname names) :
    ∃ n ∈ names, e ∈ incomingFromTable db tname n := by
  induction names with
  | nil => cases h
  | cons n rest ih =>
      have h2 : e ∈ incomingFromTable db tname n ++ scanIncoming db tname rest := h
      rcases List.mem_append.mp h2 with hl | hr
      · exact ⟨n, List.mem_cons_self n rest, hl⟩
      · rcases ih hr with ⟨m, hm, he⟩
        exact ⟨m, List.mem_cons_of_mem n hm, he⟩

theorem incoming_edge_has_source {db : Database} {tname n : String}
    {e : InEdge} (h : e ∈ incomingFromTable db tname n) :
    n ≠ tname ∧ ∃ B ∈ db.tables, B.name = n ∧
      ∃ fk ∈ B.fks, fk.table = tname ∧ fk.fromCol = e.localColumn ∧
        fk.toCol = e.foreignColumn := by
  unfold incomingFromTable at h
  split at h
  · cases h
  · next hne =>
      refine ⟨hne, ?_⟩
      rcases List.mem_map.mp h with ⟨fk, hfk, he⟩
      have hmem := List.mem_filter.mp hfk
      unfold pragmaForeignKeys at hmem
      rcases hf : findTable db n with _ | B
      · rw [hf] at hmem
        cases hmem.1
      · rw [hf] at hmem
        refine ⟨B, List.mem_of_find?_eq_some hf, ?_, fk, hmem.1, ?_, ?_, ?_⟩
        · simpa using List.find?_some hf
        · simpa using hmem.2
        · rw [← he]
        · rw [← he]

theorem colLoop_pk_length (cols : List Column) :
    (colLoop cols).2.1.length = cols.countP (·.pk) := by
  induction cols with
  | nil => rfl
  | cons c rest ih =>
      simp only [colLoop, List.countP_cons]
      by_cases hc : c.pk <;> simp [hc, ih]

theorem colLoop_notNull_count (cols : List Column) :
    (colLoop cols).2.2.1 = cols.countP (·.notNull) := by
  induction cols with
  | nil => rfl
  | cons c rest ih =>
      simp only [colLoop, List.countP_cons]
      by_cases hc : c.notNull <;> simp [hc, ih]

theorem fkLoop_fst_length (tn : String) (fks : List FK) :
    ∀ ccs, ((fkLoop tn fks ccs).1).length = fks.length := by
  induction fks with
  | nil => intro _; rfl
  | cons fk rest ih =>
      intro ccs
      simp only [fkLoop, List.length_cons]
      rw [ih]

theorem numberChecks_length (tn : String) :
    ∀ (l : List String) (k : Nat), (numberChecks tn k l).length = l.length := by
  intro l
  induction l with
  | nil => intro k; rfl
  | cons c rest ih => intro k; simp [numberChecks, ih]

theorem numberChecks_get (tn : String) :
    ∀ (l : List String) (k i : Nat) (h : i < (numberChecks tn k l).length),
    ((numberChecks tn k l).get ⟨i, h⟩).constraintName =
      "check_" ++ tn ++ "_" ++ toString (k + i + 1) ∧
    ((numberChecks tn k l).get ⟨i, h⟩).constraintType = "CHECK" := by
  intro l
  induction l with
  | nil => intro k i h; simp [numberChecks] at h
  | cons cond rest ih =>
      intro k i h
      cases i with
      | zero => simp [numberChecks]
      | succ j =>
          have h2 : j < (numberChecks tn (k + 1) rest).length := by
            rw [numberChecks_length] at h ⊢
            simp at h
            omega
          have := ih (k + 1) j h2
          constructor
          · show ((numberChecks tn (k + 1) rest).get ⟨j, h2⟩).constraintName = _
            rw [this.1]
            have he : k + 1 + j + 1 = k + (j + 1) + 1 := by omega
            rw [he]
          · show ((numberChecks tn (k + 1) rest).get ⟨j, h2⟩).constraintType = _
            exact this.2

theorem lookupStat_updateStat_ne {l : List (String × ColStat)} {n d : String}
    {f : ColStat → ColStat} (h : d ≠ n) :
    lookupStat d (updateStat l n f) = lookupStat d l := by
  induction l with
  | nil => rfl
  | cons p rest ih =>
      rcases p with ⟨m, s⟩
      show lookupStat d
        ((if m = n then (m, f s) else (m, s)) :: updateStat rest n f) =
        lookupStat d ((m, s) :: rest)
      by_cases hm : m = n
      · rw [if_pos hm]
        show (if m = d then some (f s) else lookupStat d (updateStat rest n f)) =
          (if m = d then some s else lookupStat d rest)
        have hmd : ¬(m = d) := fun he => h (he ▸ hm)
        rw [if_neg hmd, if_neg hmd]
        exact ih
      · rw [if_neg hm]
        show (if m = d then some s else lookupStat d (updateStat rest n f)) =
          (if m = d then some s else lookupStat d rest)
        by_cases hd : m = d
        · rw [if_pos hd, if_pos hd]
        · rw [if_neg hd, if_neg hd]
          exact ih

theorem lookupStat_updateStat_eq {l : List (String × ColStat)} {n : String}
    {f : ColStat → ColStat} :
    lookupStat n (updateStat l n f) = (lookupStat n l).map f := by
  induction l with
  | nil => rfl
  | cons p rest ih =>
      rcases p with ⟨m, s⟩
      show lookupStat n
        ((if m = n then (m, f s) else (m, s)) :: updateStat rest n f) =
        Option.map f (lookupStat n ((m, s) :: rest))
      by_cases hm : m = n
      · rw [if_pos hm]
        show (if m = n then some (f s) else lookupStat n (updateStat rest n f)) =
          Option.map f (if m = n then some s else lookupStat n rest)
        rw [if_pos hm, if_pos hm]
        rfl
      · rw [if_neg hm]
        show (if m = n then some s else lookupStat n (updateStat rest n f)) =
          Option.map f (if m = n then some s else lookupStat n rest)
        rw [if_neg hm, if_neg hm]
        exact ih

theorem numLoop_lookup_of_fail {env : StatsEnv} {tname c : String}
    (hfail : env.numRange tname c = none) :
    ∀ (names : List String) (s : List (String × ColStat)),
    lookupStat c (numLoop env tname s names) = lookupStat c s := by
  intro names
  induction names with
  | nil => intro s; rfl
  | cons d rest ih =>
      intro s
      show lookupStat c (numLoop env tname (numStep env tname s d) rest) = _
      rw [ih]
      unfold numStep
      by_cases hd : d = c
      · rw [hd, hfail]
      · rcases ha : env.numRange tname d with _ | ans
        · rfl
        · rcases ans with ⟨mn, mx, av⟩
          exact lookupStat_updateStat_ne (fun he => hd he.symm)

theorem numLoop_lookup_of_notmem {env : StatsEnv} {tname c : String} :
    ∀ (names : List String), c ∉ names →
    ∀ (s : List (String × ColStat)),
    lookupStat c (numLoop env tname s names) = lookupStat c s := by
  intro names
  induction names with
  | nil => intro _ s; rfl
  | cons d rest ih =>
      intro hnot s
      show lookupStat c (numLoop env tname (numStep env tname s d) rest) = _
      rw [ih (fun h => hnot (List.mem_cons_of_mem d h))]
      unfold numStep
      have hd : d ≠ c := fun h => hnot (h ▸ List.mem_cons_self d rest)
      rcases ha : env.numRange tname d with _ | ans
      · rfl
      · rcases ans with ⟨mn, mx, av⟩
        exact lookupStat_updateStat_ne (fun he => hd he.symm)

theorem dateLoop_lookup_of_fail {env : StatsEnv} {tname c : String}
    (hfail : env.dateRange tname c = none) :
    ∀ (names : List String) (s : List (String × ColStat)),
    lookupStat c (dateLoop env tname s names) = lookupStat c s := by
  intro names
  induction names with
  | nil => intro s; rfl
  | cons d rest ih =>
      intro s
      show lookupStat c (dateLoop env tname (dateStep env tname s d) rest) = _
      rw [ih]
      unfold dateStep
      by_cases hd : d = c
      · rw [hd, hfail]
      · rcases ha : env.dateRange tname d with _ | ans
        · rfl
        · rcases ans with ⟨mn, mx⟩
          exact lookupStat_updateStat_ne (fun he => hd he.symm)

theorem dateLoop_lookup_of_notmem {env : StatsEnv} {tname c : String} :
    ∀ (names : List String), c ∉ names →
    ∀ (s : List (String × ColStat)),
    lookupStat c (dateLoop env tname s names) = lookupStat c s := by
  intro names
  induction names with
  | nil => intro _ s; rfl
  | cons d rest ih =>
      intro hnot s
      show lookupStat c (dateLoop env tname (dateStep env tname s d) rest) = _
      rw [ih (fun h => hnot (List.mem_cons_of_mem d h))]
      unfold dateStep
      have hd : d ≠ c := fun h => hnot (h ▸ List.mem_cons_self d rest)
      rcases ha : env.dateRange tname d with _ | ans
      · rfl
      · rcases ans with ⟨mn, mx⟩
        exact lookupStat_updateStat_ne (fun he => hd he.symm)

theorem numStep_lookup_ne {env : StatsEnv} {tname : String}
    {s : List (String × ColStat)} {e d : String} (hde : d ≠ e) :
    lookupStat d (numStep env tname s e) = lookupStat d s := by
  unfold numStep
  rcases env.numRange tname e with _ | ⟨mn, mx, av⟩
  · rfl
  · exact lookupStat_updateStat_ne hde

theorem numStep_lookup_agree {env1 env2 : StatsEnv} {tname e : String}
    (hee : env1.numRange tname e = env2.numRange tname e)
    {s1 s2 : List (String × ColStat)}
    (hl : lookupStat e s1 = lookupStat e s2) :
    lookupStat e (numStep env1 tname s1 e) =
      lookupStat e (numStep env2 tname s2 e) := by
  unfold numStep
  rw [← hee]
  rcases env1.numRange tname e with _ | ⟨mn, mx, av⟩
  · exact hl
  · rw [lookupStat_updateStat_eq, lookupStat_updateStat_eq, hl]

theorem dateStep_lookup_ne {env : StatsEnv} {tname : String}
    {s : List (String × ColStat)} {e d : String} (hde : d ≠ e) :
    lookupStat d (dateStep env tname s e) = lookupStat d s := by
  unfold dateStep
  rcases env.dateRange tname e with _ | ⟨mn, mx⟩
  · rfl
  · exact lookupStat_updateStat_ne hde

theorem dateStep_lookup_agree {env1 env2 : StatsEnv} {tname e : String}
    (hee : env1.dateRange tname e = env2.dateRange tname e)
    {s1 s2 : List (String × ColStat)}
    (hl : lookupStat e s1 = lookupStat e s2) :
    lookupStat e (dateStep env1 tname s1 e) =
      lookupStat e (dateStep env2 tname s2 e) := by
  unfold dateStep
  rw [← hee]
  rcases env1.dateRange tname e with _ | ⟨mn, mx⟩
  · exact hl
  · rw [lookupStat_updateStat_eq, lookupStat_updateStat_eq, hl]

theorem numLoop_lookup_agree {env1 env2 : StatsEnv} {tname c : String}
    (hag : ∀ d, d ≠ c → env1.numRange tname d = env2.numRange tname d) :
    ∀ (names : List String) (s1 s2 : List (String × ColStat)),
    (∀ d, d ≠ c → lookupStat d s1 = lookupStat d s2) →
    ∀ d, d ≠ c →
    lookupStat d (numLoop env1 tname s1 names) =
      lookupStat d (numLoop env2 tname s2 names) := by
  intro names
  induction names with
  | nil => intro s1 s2 hs d hd; exact hs d hd
  | cons e rest ih =>
      intro s1 s2 hs d hd
      show lookupStat d (numLoop env1 tname (numStep env1 tname s1 e) rest) =
        lookupStat d (numLoop env2 tname (numStep env2 tname s2 e) rest)
      refine ih _ _ (fun d2 hd2 => ?_) d hd
      by_cases hde : d2 = e
      · subst hde
        exact numStep_lookup_agree (hag d2 hd2) (hs d2 hd2)
      · rw [numStep_lookup_ne hde, numStep_lookup_ne hde]
        exact hs d2 hd2

theorem dateLoop_lookup_agree {env1 env2 : StatsEnv} {tname c : String}
    (hag : ∀ d, d ≠ c → env1.dateRange tname d = env2.dateRange tname d) :
    ∀ (names : List String) (s1 s2 : List (String × ColStat)),
    (∀ d, d ≠ c → lookupStat d s1 = lookupStat d s2) →
    ∀ d, d ≠ c →
    lookupStat d (dateLoop env1 tname s1 names) =
      lookupStat d (dateLoop env2 tname s2 names) := by
  intro names
  induction names with
  | nil => intro s1 s2 hs d hd; exact hs d hd
  | cons e rest ih =>
      intro s1 s2 hs d hd
      show lookupStat d (dateLoop env1 tname (dateStep env1 tname s1 e) rest) =
        lookupStat d (dateLoop env2 tname (dateStep env2 tname s2 e) rest)
      refine ih _ _ (fun d2 hd2 => ?_) d hd
      by_cases hde : d2 = e
      · subst hde
        exact dateStep_lookup_agree (hag d2 hd2) (hs d2 hd2)
      · rw [dateStep_lookup_ne hde, dateStep_lookup_ne hde]
        exact hs d2 hd2

/-! ## Claim theorems -/

/-- C2, counterexample: at 50 rows the performance tier sits in band 0
(instant) while the size category sits in band 1 (small), so the five tiers
are not partitioned at the size-category boundaries and the tier index does
not always equal the size-category index. -/
theorem performance_tier_size_category_mismatch_at_50 :
    performanceTierIndex (getPerformanceTier 50) ≠
      sizeCategoryIndex (categorizeTableSize 50) := by decide

/-- C2, amended: the performance tier is cut at 100, 1000, 10000 and 100000
rows (not at the size-category boundaries 0, 100, 10000, 100000).  The tier
band coincides with the size-category band exactly for 0 rows and for 1000
or more rows; for 1 to 999 rows the tier band is one below the size band. -/
theorem performance_tier_vs_size_category (n : ℕ) :
    (n = 0 ∨ 1000 ≤ n →
      performanceTierIndex (getPerformanceTier n) =
        sizeCategoryIndex (categorizeTableSize n)) ∧
    (1 ≤ n → n < 1000 →
      performanceTierIndex (getPerformanceTier n) + 1 =
        sizeCategoryIndex (categorizeTableSize n)) := by
  constructor
  · rintro (rfl | h)
    · decide
    · by_cases h1 : n < 10000
      · have e1 : getPerformanceTier n = "moderate" := by
          unfold getPerformanceTier
          rw [if_neg (by omega), if_neg (by omega), if_pos h1]
        have e2 : categorizeTableSize n = "medium" := by
          unfold categorizeTableSize
          rw [if_neg (by omega), if_neg (by omega), if_pos h1]
        rw [e1, e2]
        decide
      · by_cases h2 : n < 100000
        · have e1 : getPerformanceTier n = "slow" := by
            unfold getPerformanceTier
            rw [if_neg (by omega), if_neg (by omega), if_neg (by omega),
              if_pos h2]
          have e2 : categorizeTableSize n = "large" := by
            unfold categorizeTableSize
            rw [if_neg (by omega), if_neg (by omega), if_neg (by omega),
              if_pos h2]
          rw [e1, e2]
          decide
        · have e1 : getPerformanceTier n = "optimization_required" := by
            unfold getPerformanceTier
            rw [if_neg (by omega), if_neg (by omega), if_neg (by omega),
              if_neg (by omega)]
          have e2 : categorizeTableSize n = "very_large" := by
            unfold categorizeTableSize
            rw [if_neg (by omega), if_neg (by omega), if_neg (by omega),
              if_neg (by omega)]
          rw [e1, e2]
          decide
  · intro h1 h2
    by_cases h3 : n < 100
    · have e1 : getPerformanceTier n = "instant" := by
        unfold getPerformanceTier
        rw [if_pos h3]
      have e2 : categorizeTableSize n = "small" := by
        unfold categorizeTableSize
        rw [if_neg (by omega), if_pos h3]
      rw [e1, e2]
      decide
    · have e1 : getPerformanceTier n = "fast" := by
        unfold getPerformanceTier
        rw [if_neg (by omega), if_pos h2]
      have e2 : categorizeTableSize n = "medium" := by
        unfold categorizeTableSize
        rw [if_neg (by omega), if_neg (by omega), if_pos (by omega)]
      rw [e1, e2]
      decide

/-- C2, witness: the amended statement evaluated at 5000 rows (bands agree)
and at 50 rows (tier band one below size band). -/
theorem performance_tier_vs_size_category_witness :
    performanceTierIndex (getPerformanceTier 5000) =
      sizeCategoryIndex (categorizeTableSize 5000) ∧
    performanceTierIndex (getPerformanceTier 50) + 1 =
      sizeCategoryIndex (categorizeTableSize 50) :=
  ⟨(performance_tier_vs_size_category 5000).1 (Or.inr (by omega)),
   (performance_tier_vs_size_category 50).2 (by omega) (by omega)⟩

/-- C3, counterexample: with two foreign-key columns of `orders` referencing
`users`, `can_join_to` of `orders` lists `users` twice and `referenced_by`
of `users` lists `orders` twice — the lists are not duplicate-free. -/
theorem canJoinTo_referencedBy_not_distinct :
    ¬ (tableRelationshipData pairDb "orders").canJoinTo.Nodup ∧
    ¬ (tableRelationshipData pairDb "users").referencedBy.Nodup := by decide

/-- C3, amended: `can_join_to` lists the referenced table of each outgoing
edge, one entry per foreign key (so a table referenced by k foreign-key
columns appears k times), and `referenced_by` lists the referencing table of
each incoming edge, one entry per derived edge. -/
theorem canJoinTo_referencedBy_per_edge (db : Database) (tname s : String) :
    ((tableRelationshipData db tname).canJoinTo.countP (fun n => n == s) =
      (pragmaForeignKeys db tname).countP (fun fk => fk.table == s)) ∧
    ((tableRelationshipData db tname).referencedBy.countP (fun n => n == s) =
      (incomingRelationships db tname).countP (fun e => e.localTable == s)) ∧
    (tableRelationshipData db tname).canJoinTo.length =
      (pragmaForeignKeys db tname).length ∧
    (tableRelationshipData db tname).referencedBy.length =
      (incomingRelationships db tname).length := by
  refine ⟨?_, ?_, ?_, ?_⟩
  · show ((outgoingRelationships db tname).map (·.foreignTable)).countP _ = _
    rw [List.countP_map]
    unfold outgoingRelationships
    rw [List.countP_map]
    rfl
  · show ((incomingRelationships db tname).map (·.localTable)).countP _ = _
    rw [List.countP_map]
    rfl
  · show ((outgoingRelationships db tname).map (·.foreignTable)).length = _
    rw [List.length_map]
    unfold outgoingRelationships
    rw [List.length_map]
  · show ((incomingRelationships db tname).map (·.localTable)).length = _
    rw [List.length_map]

/-- C7: for an existing table the samples operation succeeds, the row list
has length `min 5 rowCount`, `sample_size` equals that length, the column
names are the PRAGMA column list, and an empty table gives an empty row
list with no error. -/
theorem sample_data_bounded_success (db : Database) (tname : String)
    (t : Table) (hfind : findTable db tname = some t) :
    ∃ p : SamplePayload, getSampleData db tname = Except.ok p ∧
      p.sampleRows.length = min 5 t.rows.length ∧
      p.sampleSize = p.sampleRows.length ∧
      p.columnNames = t.columns.map (·.name) ∧
      (t.rows = [] → p.sampleRows = []) := by
  have hex : existsTable db tname = true := existsTable_of_findTable hfind
  refine ⟨{ tableName := tname, sampleRows := t.rows.take 5,
            columnNames := t.columns.map (·.name),
            sampleSize := (t.rows.take 5).length }, ?_, ?_, rfl, rfl, ?_⟩
  · unfold getSampleData
    rw [if_pos hex]
    unfold simpleSampleData selectLimit pragmaTableInfo
    rw [hfind]
  · rw [List.length_take]
  · intro h
    rw [h]
    rfl

/-- C7, witness: sampling the seven-row table `logs` returns five rows. -/
theorem sample_data_bounded_success_witness :
    ∃ p : SamplePayload, getSampleData logsDb "logs" = Except.ok p ∧
      p.sampleRows.length = min 5 logsTable.rows.length ∧
      p.sampleSize = p.sampleRows.length ∧
      p.columnNames = logsTable.columns.map (·.name) ∧
      (logsTable.rows = [] → p.sampleRows = []) :=
  sample_data_bounded_success logsDb "logs" logsTable (by decide)

/-- C4: requesting any of the six operations on a name that is not in the
catalog (and, for the five enumerating operations, whose lowercase form is
not the `all` sentinel) returns the `table_not_found` envelope whose
`available_tables` field is exactly the catalog list of non-system tables;
no operation raises. -/
theorem table_not_found_envelope_uniform (env : StatsEnv) (db : Database)
    (s : String) (hmiss : existsTable db s = false) :
    (pyLower s ≠ "all" →
      getDatabaseSchema db s = .error (tableNotFoundEnv
        ("Table " ++ sQuote ++ s ++ sQuote ++ " not found in analytics database")
        s (availableTables db)) ∧
      getTableRelationships db s = .error (tableNotFoundEnv
        ("Table " ++ sQuote ++ s ++ sQuote ++ " not found in database")
        s (availableTables db)) ∧
      getTableStatistics env db s = .error (tableNotFoundEnv
        ("Table " ++ sQuote ++ s ++ sQuote ++ " not found in database")
        s (availableTables db)) ∧
      getDatabaseConstraints db s = .error (tableNotFoundEnv
        ("Table " ++ sQuote ++ s ++ sQuote ++ " not found in database")
        s (availableTables db)) ∧
      getDatabaseIndexes db s = .error (tableNotFoundEnv
        ("Table " ++ sQuote ++ s ++ sQuote ++ " not found in database")
        s (availableTables db))) ∧
    getSampleData db s = .error (tableNotFoundEnv
      ("Table " ++ sQuote ++ s ++ sQuote ++ " not found in analytics database")
      s (availableTables db)) := by
  constructor
  · intro h
    refine ⟨?_, ?_, ?_, ?_, ?_⟩ <;>
      simp [getDatabaseSchema, getTableRelationships, getTableStatistics,
        getDatabaseConstraints, getDatabaseIndexes, h, hmiss]
  · simp [getSampleData, hmiss]

/-- C4, witness: the uniform envelope evaluated at the two-table catalog
and the absent name `missing`. -/
theorem table_not_found_envelope_uniform_witness :
    getDatabaseSchema pairDb "missing" = .error (tableNotFoundEnv
      ("Table " ++ sQuote ++ "missing" ++ sQuote ++
        " not found in analytics database") "missing"
      (availableTables pairDb)) ∧
    getSampleData pairDb "missing" = .error (tableNotFoundEnv
      ("Table " ++ sQuote ++ "missing" ++ sQuote ++
        " not found in analytics database") "missing"
      (availableTables pairDb)) :=
  ⟨((table_not_found_envelope_uniform trivialEnv pairDb "missing"
      (by decide)).1 (by decide)).1,
   (table_not_found_envelope_uniform trivialEnv pairDb "missing"
      (by decide)).2⟩

/-- C10: any parameter whose lowercase form is `all` drives the
enumeration path of the schema, relationships, statistics, constraints and
indexes operations — they return the all-tables payload and never the
`table_not_found` envelope, even when a table by that very name exists —
while the samples operation has no `all` path and treats the parameter as an
ordinary table name. -/
theorem all_sentinel_case_insensitive_dispatch (env : StatsEnv)
    (db : Database) (s : String) (hall : pyLower s = "all") :
    getDatabaseSchema db s = .ok (allTablesSchema db) ∧
    getTableRelationships db s =
      .ok ((availableTables db).map fun t => (t, tableRelationshipData db t)) ∧
    getTableStatistics env db s =
      .ok ((availableTables db).map fun t => (t, .basic (basicTableStats db t))) ∧
    getDatabaseConstraints db s =
      .ok ((availableTables db).map fun t => (t, getTableConstraints db t)) ∧
    getDatabaseIndexes db s =
      .ok ((availableTables db).map fun t => (t, getTableIndexes db t)) ∧
    (existsTable db s = false →
      getSampleData db s = .error (tableNotFoundEnv
        ("Table " ++ sQuote ++ s ++ sQuote ++ " not found in analytics database")
        s (availableTables db))) ∧
    (existsTable db s = true →
      getSampleData db s = .ok
        { tableName := s, sampleRows := selectLimit db s 5,
          columnNames := (pragmaTableInfo db s).map (·.name),
          sampleSize := (selectLimit db s 5).length }) := by
  refine ⟨?_, ?_, ?_, ?_, ?_, ?_, ?_⟩
  · simp [getDatabaseSchema, hall]
  · simp [getTableRelationships, hall]
  · simp [getTableStatistics, hall]
  · simp [getDatabaseConstraints, hall]
  · simp [getDatabaseIndexes, hall]
  · intro h
    simp [getSampleData, h]
  · intro h
    simp [getSampleData, h, simpleSampleData]

/-- C10, witness: with a catalog containing a table literally named `All`,
the schema operation on `All` still enumerates, while the samples
operation samples the table named `All` and reports `table_not_found` for
the name `all`. -/
theorem all_sentinel_case_insensitive_dispatch_witness :
    getDatabaseSchema allNamedDb "All" = .ok (allTablesSchema allNamedDb) ∧
    getSampleData allNamedDb "All" = .ok
      { tableName := "All", sampleRows := selectLimit allNamedDb "All" 5,
        columnNames := (pragmaTableInfo allNamedDb "All").map (·.name),
        sampleSize := (selectLimit allNamedDb "All" 5).length } ∧
    getSampleData allNamedDb "all" = .error (tableNotFoundEnv
      ("Table " ++ sQuote ++ "all" ++ sQuote ++ " not found in analytics database")
      "all" (availableTables allNamedDb)) :=
  ⟨(all_sentinel_case_insensitive_dispatch trivialEnv allNamedDb "All"
      (by decide)).1,
   (all_sentinel_case_insensitive_dispatch trivialEnv allNamedDb "All"
      (by decide)).2.2.2.2.2.2 (by decide),
   (all_sentinel_case_insensitive_dispatch trivialEnv allNamedDb "all"
      (by decide)).2.2.2.2.2.1 (by decide)⟩

/-- C6: the constraint-summary total equals the number of primary-key
columns plus the number of outgoing foreign keys plus the number of unique
constraints plus the number of check constraints plus the number of NOT
NULL columns — so a NOT NULL primary-key column is counted in both the
primary-key and the not-null term. -/
theorem constraint_summary_total (db : Database) (tname : String) (t : Table)
    (hfind : findTable db tname = some t) :
    (getTableConstraints db tname).summary.totalConstraints =
      t.columns.countP (·.pk) + t.fks.length +
      (getUniqueConstraints db tname).length +
      (getCheckConstraints db tname).length +
      t.columns.countP (·.notNull) := by
  have hcols : pragmaTableInfo db tname = t.columns := by
    unfold pragmaTableInfo
    rw [hfind]
  have hfks : pragmaForeignKeys db tname = t.fks := by
    unfold pragmaForeignKeys
    rw [hfind]
  unfold getTableConstraints
  rw [hcols, hfks]
  simp only
  rw [colLoop_pk_length, colLoop_notNull_count, fkLoop_fst_length]

/-- C6, witness: the summary total of the `products` table evaluated
through the theorem. -/
theorem constraint_summary_total_witness :
    (getTableConstraints productsDb "products").summary.totalConstraints =
      productsTable.columns.countP (·.pk) + productsTable.fks.length +
      (getUniqueConstraints productsDb "products").length +
      (getCheckConstraints productsDb "products").length +
      productsTable.columns.countP (·.notNull) :=
  constraint_summary_total productsDb "products" productsTable (by decide)

/-- C8: check-constraint extraction is total and best-effort — entry i
(0-based position) is named `check_<table>_<i+1>` with kind `CHECK`, a
missing creation statement yields the empty list, and a scan with no match
yields the empty list, never an error envelope. -/
theorem check_constraints_naming_and_totality (db : Database)
    (tname : String) (t : Table) (hfind : findTable db tname = some t) :
    (∀ i (h : i < (getCheckConstraints db tname).length),
      ((getCheckConstraints db tname).get ⟨i, h⟩).constraintName =
        "check_" ++ tname ++ "_" ++ toString (i + 1) ∧
      ((getCheckConstraints db tname).get ⟨i, h⟩).constraintType = "CHECK") ∧
    (t.createSql = none → getCheckConstraints db tname = []) ∧
    (∀ sql, t.createSql = some sql → scanChecks sql = [] →
      getCheckConstraints db tname = []) := by
  have hsel : selectCreateSql db tname = t.createSql := by
    unfold selectCreateSql
    rw [hfind]
  rcases hsql : t.createSql with _ | sql
  · rw [hsql] at hsel
    have hempty : getCheckConstraints db tname = [] := by
      unfold getCheckConstraints
      rw [hsel]
    refine ⟨?_, fun _ => hempty, fun sql2 h2 _ => Option.noConfusion h2⟩
    intro i h
    rw [hempty] at h
    cases h
  · rw [hsql] at hsel
    by_cases he : sql = ""
    · have hempty : getCheckConstraints db tname = [] := by
        unfold getCheckConstraints
        rw [hsel]
        dsimp only
        rw [if_pos he]
      refine ⟨?_, fun h2 => Option.noConfusion h2, fun _ _ _ => hempty⟩
      intro i h
      rw [hempty] at h
      cases h
    · have heq : getCheckConstraints db tname =
          numberChecks tname 0 (scanChecks sql) := by
        unfold getCheckConstraints
        rw [hsel]
        dsimp only
        rw [if_neg he]
      refine ⟨?_, fun h2 => Option.noConfusion h2, ?_⟩
      · intro i h
        have hg := List.get_of_eq heq ⟨i, h⟩
        rw [hg]
        have hnum := numberChecks_get tname (scanChecks sql) 0 i
          (by rw [← heq]; exact h)
        refine ⟨?_, hnum.2⟩
        rw [hnum.1]
        have hz : 0 + i + 1 = i + 1 := by omega
        rw [hz]
      · intro sql2 h2 hscan
        injection h2 with h3
        subst h3
        rw [heq, hscan]
        rfl

/-- C8, witness: the two CHECK clauses of the `people` table receive the
synthesized names `check_people_1` and `check_people_2` with kind CHECK. -/
theorem check_constraints_naming_witness :
    ((getCheckConstraints peopleDb "people").get ⟨0, by decide⟩).constraintName =
      "check_" ++ "people" ++ "_" ++ toString (0 + 1) ∧
    ((getCheckConstraints peopleDb "people").get ⟨0, by decide⟩).constraintType =
      "CHECK" :=
  (check_constraints_naming_and_totality peopleDb "people" peopleTable
    (by decide)).1 0 (by decide)

/-- C5: the unique-constraint list never contains a single-column entry on
a primary-key column; every multi-column unique index and every
single-column unique index on a non-primary-key column is retained. -/
theorem unique_constraints_exclude_single_pk (db : Database)
    (tname : String) (t : Table) (hfind : findTable db tname = some t) :
    (∀ u ∈ getUniqueConstraints db tname, ∀ c : String,
      u.columns = [c] →
      ¬ ∃ col ∈ t.columns, col.name = c ∧ col.pk = true) ∧
    (∀ idx ∈ t.indexes, idx.unique = true →
      (∀ c : String, idx.cols = [c] →
        ¬ ∃ col ∈ t.columns, col.name = c ∧ col.pk = true) →
      ∃ u ∈ getUniqueConstraints db tname,
        u.constraintName = idx.name ∧ u.columns = idx.cols ∧
        u.constraintType = "UNIQUE") := by
  have hidx : pragmaIndexList db tname = t.indexes := by
    unfold pragmaIndexList
    rw [hfind]
  have hcols : pragmaTableInfo db tname = t.columns := by
    unfold pragmaTableInfo
    rw [hfind]
  constructor
  · intro u hu c hc
    unfold getUniqueConstraints at hu
    rw [hidx, hcols] at hu
    rcases List.mem_filterMap.mp hu with ⟨idx, hmem, hf⟩
    by_cases hun : idx.unique = true
    · rw [if_pos hun] at hf
      rcases hcl : idx.cols with _ | ⟨c0, rest⟩
      · rw [hcl] at hf
        dsimp only at hf
        injection hf with hf2
        subst hf2
        cases hc
      · rcases rest with _ | ⟨c1, rest2⟩
        · rw [hcl] at hf
          dsimp only at hf
          by_cases hpk : t.columns.any (fun col => col.name = c0 && col.pk) = true
          · rw [if_pos hpk] at hf
            cases hf
          · rw [if_neg hpk] at hf
            injection hf with hf2
            subst hf2
            have hcc : c0 = c := by
              have : [c0] = [c] := hc
              injection this
            subst hcc
            rintro ⟨col, hm, hn, hp⟩
            apply hpk
            rw [List.any_eq_true]
            exact ⟨col, hm, by simp [hn, hp]⟩
        · rw [hcl] at hf
          dsimp only at hf
          injection hf with hf2
          subst hf2
          cases hc
    · rw [if_neg hun] at hf
      cases hf
  · intro idx hmem hun hnotpk
    refine ⟨⟨idx.name, idx.cols, "UNIQUE"⟩, ?_, rfl, rfl, rfl⟩
    unfold getUniqueConstraints
    rw [hidx, hcols]
    refine List.mem_filterMap.mpr ⟨idx, hmem, ?_⟩
    rw [if_pos hun]
    rcases hcl : idx.cols with _ | ⟨c0, rest⟩
    · rfl
    · rcases rest with _ | ⟨c1, rest2⟩
      · dsimp only
        have hpk : ¬ (t.columns.any (fun col => col.name = c0 && col.pk) = true) := by
          intro hany
          rcases List.any_eq_true.mp hany with ⟨col, hm, hcp⟩
          have hcp2 := hcp
          simp only [Bool.and_eq_true, decide_eq_true_eq] at hcp2
          exact hnotpk c0 hcl ⟨col, hm, hcp2.1, hcp2.2⟩
        rw [if_neg hpk]
      · rfl

/-- C5, witness: on the `products` table the retention direction yields the
single-column unique constraint on the non-key column `sku`. -/
theorem unique_constraints_exclude_single_pk_witness :
    ∃ u ∈ getUniqueConstraints productsDb "products",
      u.constraintName = "idx_sku" ∧ u.columns = ["sku"] ∧
      u.constraintType = "UNIQUE" :=
  (unique_constraints_exclude_single_pk productsDb "products" productsTable
    (by decide)).2 ⟨"idx_sku", true, "u", ["sku"]⟩ (by decide) rfl
    (by
      intro c h
      injection h with h1 h2
      subst h1
      decide)

/-- C1, counterexample: a self-referencing foreign key (A = B) produces an
outgoing edge but no corresponding incoming edge, because the incoming scan
skips the table itself — the claimed correspondence fails for A = B. -/
theorem selfref_fk_missing_incoming :
    (tableRelationshipData selfRefDb "employees").outgoing =
      [{ localColumn := "manager_id", foreignTable := "employees",
         foreignColumn := "id", relationshipType := "many_to_one",
         constraintName := "fk_employees_manager_id" }] ∧
    (tableRelationshipData selfRefDb "employees").incoming = [] := by decide

/-- C1, amended: for every pair of distinct tables the incoming/outgoing
correspondence holds with exact multiplicity (the incoming list of B holds
as many (A, col, refcol) edges as A has matching foreign keys), and every
incoming edge of B arises from an outgoing foreign key of its (distinct)
local table; a self-referencing foreign key contributes no incoming edge at
all, since the scan skips the table itself. -/
theorem bidirectional_incoming_correspondence (db : Database)
    (tname : String) (hnd : (db.tables.map (·.name)).Nodup) :
    (∀ A : Table, A ∈ db.tables → matchesSqlitePattern A.name = false →
      A.name ≠ tname → ∀ c rc : String,
      (incomingRelationships db tname).countP
        (fun e => e.localTable == A.name && e.localColumn == c &&
          e.foreignColumn == rc) =
      A.fks.countP
        (fun fk => fk.table == tname && fk.fromCol == c && fk.toCol == rc)) ∧
    (∀ e ∈ incomingRelationships db tname, e.localTable ≠ tname ∧
      ∃ B ∈ db.tables, B.name = e.localTable ∧
        ∃ fk ∈ B.fks, fk.table = tname ∧ fk.fromCol = e.localColumn ∧
          fk.toCol = e.foreignColumn) ∧
    (incomingRelationships db tname).countP
      (fun e => e.localTable == tname) = 0 := by
  refine ⟨?_, ?_, ?_⟩
  · intro A hA hsys hne c rc
    exact scanIncoming_countP_eq (findTable_of_mem_nodup hnd hA) hne c rc
      (availableTables db) (availableTables_nodup hnd)
      (name_mem_availableTables hA hsys)
  · intro e he
    rcases mem_scanIncoming he with ⟨n, _, hmem⟩
    have h2 := incoming_edge_has_source hmem
    have hl := localTable_of_mem_incomingFromTable hmem
    refine ⟨by rw [hl]; exact h2.1, ?_⟩
    rcases h2.2 with ⟨B, hB, hBn, rest⟩
    exact ⟨B, hB, by rw [hl]; exact hBn, rest⟩
  · refine List.countP_eq_zero.mpr fun e he => ?_
    rcases mem_scanIncoming he with ⟨n, _, hmem⟩
    have h1 := (incoming_edge_has_source hmem).1
    have hl := localTable_of_mem_incomingFromTable hmem
    simp [hl, h1]

/-- C1, witness: in the two-table catalog the incoming list of `users`
holds exactly as many (`orders`, `buyer_id`, `id`) edges as `orders` has
matching foreign keys. -/
theorem bidirectional_incoming_correspondence_witness :
    (incomingRelationships pairDb "users").countP
      (fun e => e.localTable == "orders" && e.localColumn == "buyer_id" &&
        e.foreignColumn == "id") =
    ordersTable.fks.countP
      (fun fk => fk.table == "users" && fk.fromCol == "buyer_id" &&
        fk.toCol == "id") :=
  (bidirectional_incoming_correspondence pairDb "users" (by decide)).1
    ordersTable (by decide) (by decide) (by decide) "buyer_id" "id"

theorem lookupStat_base {cols : List Column}
    (hnd : (cols.map (·.name)).Nodup) {col : Column} (hcol : col ∈ cols) :
    lookupStat col.name (cols.map fun c =>
      (c.name, ({ declType := pyLower c.declType, nullable := !c.notNull,
                  fields := .noRange } : ColStat))) =
    some { declType := pyLower col.declType, nullable := !col.notNull,
           fields := .noRange } := by
  induction cols with
  | nil => cases hcol
  | cons c rest ih =>
      simp only [List.map_cons, List.nodup_cons] at hnd
      rcases List.mem_cons.mp hcol with rfl | hmem
      · show (if col.name = col.name then some _ else _) = _
        rw [if_pos rfl]
      · have hne : c.name ≠ col.name := fun he =>
          hnd.1 (he ▸ List.mem_map_of_mem (·.name) hmem)
        show (if c.name = col.name then _
          else lookupStat col.name (rest.map _)) = _
        rw [if_neg hne]
        exact ih hnd.2 hmem

theorem numeric_name_notmem_date {cols : List Column}
    (hnd : (cols.map (·.name)).Nodup) {col : Column} (hcol : col ∈ cols)
    (hnum : isNumericType col = true) :
    col.name ∉
      ((cols.filter fun c => !isNumericType c && isDateType c).map (·.name)) := by
  intro hmem
  rcases List.mem_map.mp hmem with ⟨c2, hc2, hname⟩
  have hf := List.mem_filter.mp hc2
  have heqc : c2 = col := List.inj_on_of_nodup_map hnd hf.1 hcol hname
  subst heqc
  have := hf.2
  rw [hnum] at this
  simp at this

theorem date_name_notmem_numeric {cols : List Column}
    (hnd : (cols.map (·.name)).Nodup) {col : Column} (hcol : col ∈ cols)
    (hnum : isNumericType col = false) :
    col.name ∉ ((cols.filter isNumericType).map (·.name)) := by
  intro hmem
  rcases List.mem_map.mp hmem with ⟨c2, hc2, hname⟩
  have hf := List.mem_filter.mp hc2
  have heqc : c2 = col := List.inj_on_of_nodup_map hnd hf.1 hcol hname
  subst heqc
  rw [hnum] at hf
  simp at hf

theorem notmem_take {α : Type} {l : List α} {a : α} {k : Nat}
    (h : a ∉ l) : a ∉ l.take k :=
  fun hm => h (List.take_subset k l hm)

/-- C9: when the range query for one (numeric or date) column raises a
catalog error, detailed statistics still succeed — the failing column keeps
only its basic type/nullable fields with no range fields, and every other
column has exactly the statistics it would have had under an oracle that
answers identically elsewhere (so the remaining capped columns are still
processed). -/
theorem detailed_stats_range_error_degrades (db : Database)
    (tname : String) (t : Table) (hfind : findTable db tname = some t)
    (hnd : (t.columns.map (·.name)).Nodup)
    (hall : pyLower tname ≠ "all") :
    (∀ env1 env2 : StatsEnv, ∀ col : Column, col ∈ t.columns →
      isNumericType col = true →
      env1.numRange tname col.name = none →
      (∀ d, d ≠ col.name → env1.numRange tname d = env2.numRange tname d) →
      env1.dateRange = env2.dateRange →
      getTableStatistics env1 db tname =
        .ok [(tname, .detailed (detailedTableStats env1 db tname))] ∧
      lookupStat col.name
          (detailedTableStats env1 db tname).columnStatistics =
        some { declType := pyLower col.declType, nullable := !col.notNull,
               fields := .noRange } ∧
      (∀ d, d ≠ col.name →
        lookupStat d (detailedTableStats env1 db tname).columnStatistics =
        lookupStat d (detailedTableStats env2 db tname).columnStatistics)) ∧
    (∀ env1 env2 : StatsEnv, ∀ col : Column, col ∈ t.columns →
      isNumericType col = false → isDateType col = true →
      env1.dateRange tname col.name = none →
      (∀ d, d ≠ col.name → env1.dateRange tname d = env2.dateRange tname d) →
      env1.numRange = env2.numRange →
      getTableStatistics env1 db tname =
        .ok [(tname, .detailed (detailedTableStats env1 db tname))] ∧
      lookupStat col.name
          (detailedTableStats env1 db tname).columnStatistics =
        some { declType := pyLower col.declType, nullable := !col.notNull,
               fields := .noRange } ∧
      (∀ d, d ≠ col.name →
        lookupStat d (detailedTableStats env1 db tname).columnStatistics =
        lookupStat d (detailedTableStats env2 db tname).columnStatistics)) := by
  have hex : existsTable db tname = true := existsTable_of_findTable hfind
  have hcols : pragmaTableInfo db tname = t.columns := by
    unfold pragmaTableInfo
    rw [hfind]
  have hstats : ∀ env : StatsEnv,
      (detailedTableStats env db tname).columnStatistics =
      dateLoop env tname
        (numLoop env tname
          (t.columns.map fun c =>
            (c.name, ({ declType := pyLower c.declType,
                        nullable := !c.notNull,
                        fields := .noRange } : ColStat)))
          (((t.columns.filter isNumericType).map (·.name)).take 5))
        (((t.columns.filter fun c =>
            !isNumericType c && isDateType c).map (·.name)).take 3) := by
    intro env
    simp only [detailedTableStats, hcols]
  constructor
  · intro env1 env2 col hcol hnum hfail hag henv
    refine ⟨?_, ?_, ?_⟩
    · simp [getTableStatistics, hall, hex]
    · rw [hstats env1]
      rw [dateLoop_lookup_of_notmem _
        (notmem_take (numeric_name_notmem_date hnd hcol hnum))]
      rw [numLoop_lookup_of_fail hfail]
      exact lookupStat_base hnd hcol
    · intro d hd
      rw [hstats env1, hstats env2]
      exact dateLoop_lookup_agree (fun d2 _ => by rw [henv]) _ _ _
        (fun d2 hd2 => numLoop_lookup_agree hag _ _ _ (fun _ _ => rfl) d2 hd2)
        d hd
  · intro env1 env2 col hcol hnum hdate hfail hag henv
    refine ⟨?_, ?_, ?_⟩
    · simp [getTableStatistics, hall, hex]
    · rw [hstats env1]
      rw [dateLoop_lookup_of_fail hfail]
      rw [numLoop_lookup_of_notmem _
        (notmem_take (date_name_notmem_numeric hnd hcol hnum))]
      exact lookupStat_base hnd hcol
    · intro d hd
      rw [hstats env1, hstats env2]
      exact dateLoop_lookup_agree hag _ _ _
        (fun d2 hd2 => numLoop_lookup_agree (fun d3 _ => by rw [henv]) _ _ _
          (fun _ _ => rfl) d2 hd2)
        d hd

/-- C9, witness: with the oracle whose query on column `a` of `measures`
raises, the operation still succeeds, column `a` keeps only its basic
fields, and column `b` has the same statistics as under the fully
answering oracle. -/
theorem detailed_stats_range_error_degrades_witness :
    getTableStatistics failEnv measuresDb "measures" =
      .ok [("measures",
        .detailed (detailedTableStats failEnv measuresDb "measures"))] ∧
    lookupStat "a"
        (detailedTableStats failEnv measuresDb "measures").columnStatistics =
      some { declType := pyLower "INT", nullable := !false,
             fields := .noRange } ∧
    lookupStat "b"
        (detailedTableStats failEnv measuresDb "measures").columnStatistics =
      lookupStat "b"
        (detailedTableStats okEnv measuresDb "measures").columnStatistics := by
  have h := (detailed_stats_range_error_degrades measuresDb "measures"
      measuresTable (by decide) (by decide) (by decide)).1 failEnv okEnv
      ⟨"a", "INT", false, none, false⟩ (by decide) (by decide) (by decide)
      (by
        intro d hd
        show (if d = "a" then none else _) = (if d = "a" then _ else _)
        rw [if_neg hd, if_neg hd])
      rfl
  exact ⟨h.1, h.2.1, h.2.2 "b" (by decide)⟩
